import Mathlib

/-!
Verification of a client-side normalized GraphQL cache with optimistic
overlays, together with its error-carrier type.

The error-carrier type (`ApolloError`, `isApolloError`,
`generateErrorMessage`) is embedded directly from `src/errors/index.ts`.
The cache core (entity store, layer stack, read resolver, dependency
tracker, write coordinator, notifier) is not present in the repository's
source tree; its definitions below are modelled from the specification
document, faithfully following its words.
-/

set_option autoImplicit false

namespace Cache

/-- Modelled from the spec (the cache core's implementation is missing from
the source tree): a Cache Identifier is a string uniquely naming one
normalized entity. -/
abbrev Ident := String

/-- Modelled from the spec: a field name inside an Entity Record. -/
abbrev Field := String

/-- Modelled from the spec (section 3 / design note 9): a cached value is a
tagged value — a scalar, a reference to another entity by Cache Identifier,
or a list of such values. -/
inductive Value where
  | scalar : String → Value
  | ref : Ident → Value
  | vlist : List Value → Value

/-- Structural decidable equality for `Value` (written by hand because of the
nested `List Value` occurrence). -/
def Value.beqv : Value → Value → Bool
  | .scalar a, .scalar b => a = b
  | .ref a, .ref b => a = b
  | .vlist a, .vlist b => beqList a b
  | _, _ => false
where
  beqList : List Value → List Value → Bool
    | [], [] => true
    | x :: xs, y :: ys => x.beqv y && beqList xs ys
    | _, _ => false

mutual

theorem Value.beqv_refl : (v : Value) → v.beqv v = true
  | .scalar _ => by simp [Value.beqv]
  | .ref _ => by simp [Value.beqv]
  | .vlist l => by simpa only [Value.beqv] using Value.beqvList_refl l

theorem Value.beqvList_refl : (l : List Value) → Value.beqv.beqList l l = true
  | [] => rfl
  | x :: xs => by
      simp only [Value.beqv.beqList, Bool.and_eq_true]
      exact ⟨Value.beqv_refl x, Value.beqvList_refl xs⟩

end

mutual

theorem Value.eq_of_beqv : (a b : Value) → a.beqv b = true → a = b
  | .scalar _, .scalar _, h => by
      simp only [Value.beqv, decide_eq_true_eq] at h; rw [h]
  | .ref _, .ref _, h => by
      simp only [Value.beqv, decide_eq_true_eq] at h; rw [h]
  | .vlist a, .vlist b, h => by
      simp only [Value.beqv] at h
      exact congrArg Value.vlist (Value.eqList_of_beqvList a b h)
  | .scalar _, .ref _, h => by simp [Value.beqv] at h
  | .scalar _, .vlist _, h => by simp [Value.beqv] at h
  | .ref _, .scalar _, h => by simp [Value.beqv] at h
  | .ref _, .vlist _, h => by simp [Value.beqv] at h
  | .vlist _, .scalar _, h => by simp [Value.beqv] at h
  | .vlist _, .ref _, h => by simp [Value.beqv] at h

theorem Value.eqList_of_beqvList : (a b : List Value) → Value.beqv.beqList a b = true → a = b
  | [], [], _ => rfl
  | [], _ :: _, h => by simp [Value.beqv.beqList] at h
  | _ :: _, [], h => by simp [Value.beqv.beqList] at h
  | x :: xs, y :: ys, h => by
      simp only [Value.beqv.beqList, Bool.and_eq_true] at h
      exact List.cons_eq_cons.mpr ⟨Value.eq_of_beqv x y h.1, Value.eqList_of_beqvList xs ys h.2⟩

end

instance : DecidableEq Value := fun a b =>
  if h : a.beqv b = true then .isTrue (Value.eq_of_beqv a b h)
  else .isFalse (fun he => h (he ▸ Value.beqv_refl a))

/-- Modelled from the spec: an Entity Record (possibly partial) is a sparse
mapping from field name to value, represented as an association list. -/
abbrev Record := List (Field × Value)

/-- Modelled from the spec: first-match association-list search, shared by
record field maps and identifier-keyed maps. -/
def alookup {β : Type} : List (String × β) → String → Option β
  | [], _ => none
  | (k, v) :: rest, q => if k = q then some v else alookup rest q

/-- Modelled from the spec: search for a field inside a record. -/
abbrev lookupField (r : Record) (f : Field) : Option Value := alookup r f

/-- Modelled from the spec: the Entity Store holds canonical normalized
records keyed by cache identifier. -/
abbrev Store := List (Ident × Record)

/-- Modelled from the spec: search for an entity's record in a store-shaped
association list (also used for a layer's sparse patch). -/
abbrev lookupEntity (st : List (Ident × Record)) (id : Ident) : Option Record := alookup st id

/-- Modelled from the spec: the canonical value of field `f` on entity `id`
in the Entity Store, ignoring all optimistic layers. -/
def storeField (st : Store) (id : Ident) (f : Field) : Option Value :=
  match lookupEntity st id with
  | some r => lookupField r f
  | none => none

/-- Modelled from the spec (section 4.1): `write(id, record)` merges fields
into the stored record for `id`, creating it if absent; fields absent from
the incoming patch are left untouched. Incoming fields shadow old ones. -/
def storeWrite (st : Store) (id : Ident) (rec : Record) : Store :=
  match lookupEntity st id with
  | some old => (id, rec ++ old) :: st
  | none => (id, rec) :: st

/-- Modelled from the spec: an Optimistic Layer is identified by a
caller-supplied Transaction Id and contains a sparse mapping from Cache
Identifier to partial Entity Record. -/
structure Layer where
  txId : String
  patch : List (Ident × Record)
deriving DecidableEq

/-- Modelled from the spec: the value a single layer's patch defines for
field `f` on entity `id`, when it defines one. -/
def layerField (l : Layer) (id : Ident) (f : Field) : Option Value :=
  match lookupEntity l.patch id with
  | some r => lookupField r f
  | none => none

/-- Modelled from the spec: the whole cache state — the canonical Entity
Store plus the Layer Stack, newest (topmost) layer first. -/
structure CacheState where
  store : Store
  layers : List Layer

/-- Modelled from the spec (section 4.3): scan the layer stack from topmost
to bottommost; the first layer defining the field wins. -/
def firstLayerValue : List Layer → Ident → Field → Option Value
  | [], _, _ => none
  | l :: rest, id, f =>
    match layerField l id f with
    | some v => some v
    | none => firstLayerValue rest id f

/-- Modelled from the spec (section 4.3): the effective value of one field —
the topmost layer defining it wins; with no such layer it falls through to
the Entity Store; `none` is the `MissingFieldError`/incomplete outcome. -/
def effectiveField (s : CacheState) (id : Ident) (f : Field) : Option Value :=
  match firstLayerValue s.layers id f with
  | some v => some v
  | none => storeField s.store id f

/-- Modelled from the spec (section 4.3): `resolve(id, fieldPath)` resolves a
field path lazily; reference fields (values naming another Cache Identifier)
resolve recursively. -/
def resolve (s : CacheState) (id : Ident) : List Field → Option Value
  | [] => none
  | [f] => effectiveField s id f
  | f :: g :: rest =>
    match effectiveField s id f with
    | some (Value.ref id2) => resolve s id2 (g :: rest)
    | _ => none

/-- Modelled from the spec (section 7): the structural cache errors. -/
inductive CacheError where
  | duplicateTransactionError
  | unknownTransactionError
deriving DecidableEq

/-- Modelled from the spec: whether a transaction id currently has a live
layer in the stack. -/
def isLive (s : CacheState) (t : String) : Bool :=
  s.layers.any (fun l => l.txId = t)

/-- Modelled from the spec (sections 4.2 and 6): `beginOptimistic` pushes a
new top layer for the transaction; it fails with `DuplicateTransactionError`
when the transaction id already has a live layer, leaving the state alone. -/
def beginOptimistic (s : CacheState) (t : String) (patch : List (Ident × Record)) :
    Except CacheError CacheState :=
  if isLive s t then .error .duplicateTransactionError
  else .ok { s with layers := { txId := t, patch := patch } :: s.layers }

/-- Modelled from the spec (section 7): the caller-visible run of
`beginOptimistic` — a structural error is surfaced synchronously and the
caller keeps the state it passed in, untouched. -/
def beginOptimisticRun (s : CacheState) (t : String) (patch : List (Ident × Record)) :
    CacheState × Option CacheError :=
  match beginOptimistic s t patch with
  | .ok s2 => (s2, none)
  | .error e => (s, some e)

/-- Modelled from the spec (sections 4.2, 4.5): `discardOptimistic` removes
the named layer (not necessarily the top one) and fails with
`UnknownTransactionError` when no live layer carries the id; the relative
order of the remaining layers is untouched. -/
def discardOptimistic (s : CacheState) (t : String) : Except CacheError CacheState :=
  if isLive s t then .ok { s with layers := s.layers.filter (fun l => l.txId ≠ t) }
  else .error .unknownTransactionError

/-- Modelled from the spec (section 4.5): a canonical write of one record
lands in the Entity Store only; the layer stack is never touched. -/
def applyCanonicalRecord (s : CacheState) (id : Ident) (rec : Record) : CacheState :=
  { s with store := storeWrite s.store id rec }

/-- Modelled from the spec: a canonical write of several records, applied in
order within one coordinator operation. -/
def applyCanonical (s : CacheState) (recs : List (Ident × Record)) : CacheState :=
  recs.foldl (fun acc p => applyCanonicalRecord acc p.1 p.2) s

/-- Modelled from the spec (section 6): `commit(transactionId,
canonicalRecord)` discards the optimistic layer and applies the canonical
data atomically; with no live layer it fails with `UnknownTransactionError`. -/
def commit (s : CacheState) (t : String) (recs : List (Ident × Record)) :
    Except CacheError CacheState :=
  if isLive s t then
    .ok (applyCanonical { s with layers := s.layers.filter (fun l => l.txId ≠ t) } recs)
  else .error .unknownTransactionError

/-- Modelled from the spec (glossary): a change-set entry is an
(identifier, field) pair. -/
abbrev Path := Ident × Field

/-- Modelled from the spec (section 4.5): the pairs a write of `rec` onto
entity `id` touches — one per field of the incoming partial record. -/
def touchedPairs (id : Ident) (rec : Record) : List Path :=
  rec.map (fun p => (id, p.1))

/-- Modelled from the spec (section 4.5): the pairs a multi-record patch
touches. -/
def touchedPairsAll (recs : List (Ident × Record)) : List Path :=
  recs.flatMap (fun p => touchedPairs p.1 p.2)

/-- Modelled from the spec (section 4.5): the diff step — among candidate
pairs keep exactly those whose effective value actually changed between the
old and the new state (value equality). -/
def diffPairs (old new : CacheState) (pairs : List Path) : List Path :=
  pairs.filter (fun p => decide (effectiveField old p.1 p.2 ≠ effectiveField new p.1 p.2))

/-- Modelled from the spec (section 4.5): `applyCanonical(id, record)` as the
Write Coordinator runs it — write to the Entity Store and return the
change-set of touched pairs whose effective value moved. -/
def applyCanonicalW (s : CacheState) (id : Ident) (rec : Record) :
    CacheState × List Path :=
  let s2 := applyCanonicalRecord s id rec
  (s2, diffPairs s s2 (touchedPairs id rec))

/-- Modelled from the spec (section 4.5): `applyOptimistic` — push a layer
for the transaction and return the change-set from effective-value diffing;
fails with `DuplicateTransactionError` exactly as `beginOptimistic` does. -/
def applyOptimisticW (s : CacheState) (t : String) (patch : List (Ident × Record)) :
    Except CacheError (CacheState × List Path) :=
  match beginOptimistic s t patch with
  | .error e => .error e
  | .ok s2 => .ok (s2, diffPairs s s2 (touchedPairsAll patch))

/-- Modelled from the spec (section 3): a Query Subscription — a Subscription
Id plus the dependency set recorded on the last resolution. The callback is
observed through membership in the notified-id list. -/
structure Subscription where
  subId : String
  deps : List Path
deriving DecidableEq

/-- Modelled from the spec (section 4.4): whether one subscription's recorded
dependency set intersects the changed paths. -/
def affected (changed : List Path) (sub : Subscription) : Bool :=
  sub.deps.any (fun p => changed.contains p)

/-- Modelled from the spec (section 4.4): `affectedBy(changedPaths)` — the
Subscription Ids whose recorded dependency set intersects the changed
paths. -/
def affectedBy (changed : List Path) (subs : List Subscription) : List String :=
  (subs.filter (affected changed)).map (fun sub => sub.subId)

/-- Modelled from the spec (section 4.6): `notify(changeSet)` invokes each
affected subscription's callback exactly once, deduplicated by Subscription
Id; the result lists the ids whose callback was invoked. -/
def notify (changed : List Path) (subs : List Subscription) : List String :=
  (affectedBy changed subs).dedup

/-- Concrete canonical store used to exercise the theorems: the blog-comment
entity of the optimistic-UI walkthrough. -/
def sampleStore : Store :=
  [("Comment:5", [("content", Value.scalar "old"), ("id", Value.scalar "5")])]

/-- Concrete cache state with no live optimistic layer. -/
def sampleState : CacheState :=
  { store := sampleStore, layers := [] }

/-- Concrete cache state with one live optimistic layer masking
`(Comment:5, content)`. -/
def sampleLayerState : CacheState :=
  { store := sampleStore
    layers := [{ txId := "t1", patch := [("Comment:5", [("content", Value.scalar "new")])] }] }

/-- Concrete subscription depending exactly on `(Comment:5, content)`. -/
def sampleSub : Subscription :=
  { subId := "q1", deps := [("Comment:5", "content")] }

end Cache

namespace Errors

/-!
Embedded from `src/errors/index.ts`. GraphQL errors, client errors and
network errors all enter `generateErrorMessage` only through their `message`
property, so one carrier structure serves for all of them.
-/

/-- An error object as the module consumes it: only its `message` matters. -/
structure ErrObj where
  message : String
deriving DecidableEq

/-- From `isNonEmptyArray` (src/utilities): an array with at least one
element. -/
def isNonEmptyArray (l : List ErrObj) : Bool :=
  !l.isEmpty

/-- From `message.replace(/\n$/, '')` in `generateErrorMessage`: the regex is
anchored, so at most one trailing newline is removed. -/
def stripTrailingNewline (s : String) : String :=
  if s.endsWith "\n" then s.dropRight 1 else s

/-- From `generateErrorMessage` (src/errors/index.ts lines 19-40): append
each GraphQL error's then each client error's message followed by a newline
(guarded by `isNonEmptyArray` on either list), then the network error's
message followed by a newline when present, then strip one trailing
newline. -/
def generateErrorMessage (graphQLErrors clientErrors : List ErrObj)
    (networkError : Option ErrObj) : String :=
  let base :=
    if isNonEmptyArray graphQLErrors || isNonEmptyArray clientErrors then
      (graphQLErrors ++ clientErrors).foldl (fun acc e => acc ++ e.message ++ "\n") ""
    else ""
  let withNet :=
    match networkError with
    | some ne => base ++ ne.message ++ "\n"
    | none => base
  stripTrailingNewline withNet

/-- The `ApolloError` instance fields the constructor assigns
(src/errors/index.ts lines 42-79); `extraInfo` is opaque to every claim and
is omitted. -/
structure ApolloError where
  message : String
  graphQLErrors : List ErrObj
  clientErrors : List ErrObj
  networkError : Option ErrObj
deriving DecidableEq

/-- From the `ApolloError` constructor (src/errors/index.ts lines 56-79):
`graphQLErrors || []`, `clientErrors || []`, `networkError || null`, and
`errorMessage || generateErrorMessage(this)` — JavaScript `||` treats the
empty string as falsy, so an empty `errorMessage` falls back to the
generated aggregate message. -/
def mkApolloError (graphQLErrors clientErrors : Option (List ErrObj))
    (networkError : Option ErrObj) (errorMessage : Option String) : ApolloError :=
  let g := graphQLErrors.getD []
  let c := clientErrors.getD []
  let gen := generateErrorMessage g c networkError
  { message :=
      match errorMessage with
      | some m => if m.isEmpty then gen else m
      | none => gen
    graphQLErrors := g
    clientErrors := c
    networkError := networkError }

/-- A JavaScript `Error` object viewed structurally: its message and the
names of its own properties, as `hasOwnProperty` sees them. -/
structure JSErrorObj where
  message : String
  ownProps : List String
deriving DecidableEq

/-- From `isApolloError` (src/errors/index.ts lines 11-13):
`err.hasOwnProperty('graphQLErrors')`. -/
def isApolloError (e : JSErrorObj) : Bool :=
  e.ownProps.contains "graphQLErrors"

/-- The own properties every `ApolloError` constructor run assigns on the
instance (src/errors/index.ts lines 70-74). -/
def apolloErrorOwnProps : List String :=
  ["graphQLErrors", "clientErrors", "networkError", "message", "extraInfo"]

/-- The `ApolloError` constructor's output viewed as a plain JavaScript
object: it always carries exactly the own properties assigned on lines
70-74. -/
def mkApolloErrorObj (msg : String) : JSErrorObj :=
  { message := msg, ownProps := apolloErrorOwnProps }

/-- The aggregate message the spec describes for claim comparison: every
error message followed by a newline, concatenated in order. -/
def concatMessages (l : List ErrObj) : String :=
  l.foldr (fun e acc => e.message ++ "\n" ++ acc) ""

end Errors

namespace Cache

theorem alookup_append {β : Type} (a b : List (String × β)) (q : String) :
    alookup (a ++ b) q =
      match alookup a q with
      | some v => some v
      | none => alookup b q := by
  induction a with
  | nil => simp [alookup]
  | cons p rest ih =>
      obtain ⟨k, v⟩ := p
      by_cases h : k = q
      · simp [alookup, h]
      · simp [alookup, h, ih]

theorem mem_of_alookup {β : Type} {l : List (String × β)} {q : String} {v : β}
    (h : alookup l q = some v) : (q, v) ∈ l := by
  induction l with
  | nil => simp [alookup] at h
  | cons p rest ih =>
      obtain ⟨k, w⟩ := p
      by_cases hk : k = q
      · rw [alookup, if_pos hk] at h
        cases h
        subst hk
        exact List.mem_cons_self _ _
      · rw [alookup, if_neg hk] at h
        exact List.mem_cons_of_mem _ (ih h)

theorem storeField_storeWrite (st : Store) (id : Ident) (rec : Record) (id2 : Ident) (f : Field) :
    storeField (storeWrite st id rec) id2 f =
      if id2 = id then
        match lookupField rec f with
        | some v => some v
        | none => storeField st id f
      else storeField st id2 f := by
  by_cases hid : id2 = id
  · subst hid
    cases hold : alookup st id2 with
    | some old =>
        simp only [storeWrite, storeField, lookupEntity, lookupField, hold, alookup,
          eq_self_iff_true, if_true]
        rw [alookup_append]
        cases alookup rec f <;> rfl
    | none =>
        simp only [storeWrite, storeField, lookupEntity, lookupField, hold, alookup, if_pos rfl]
        cases hrf : alookup rec f <;> simp [hrf]
  · have hne : id ≠ id2 := fun h => hid h.symm
    cases hold : alookup st id with
    | some old =>
        simp [storeWrite, storeField, lookupEntity, hold, alookup, hne, hid]
    | none =>
        simp [storeWrite, storeField, lookupEntity, hold, alookup, hne, hid]

theorem firstLayerValue_eq_none {layers : List Layer} {id : Ident} {f : Field}
    (h : layers.any (fun l => (layerField l id f).isSome) = false) :
    firstLayerValue layers id f = none := by
  induction layers with
  | nil => rfl
  | cons l rest ih =>
      simp only [List.any_cons, Bool.or_eq_false_iff] at h
      cases hl : layerField l id f with
      | some v => rw [hl] at h; simp at h
      | none => simp only [firstLayerValue, hl]; exact ih h.2

theorem firstLayerValue_isSome {layers : List Layer} {id : Ident} {f : Field}
    (h : layers.any (fun l => (layerField l id f).isSome) = true) :
    ∃ v, firstLayerValue layers id f = some v := by
  induction layers with
  | nil => simp at h
  | cons l rest ih =>
      simp only [List.any_cons, Bool.or_eq_true] at h
      cases hl : layerField l id f with
      | some v => exact ⟨v, by simp [firstLayerValue, hl]⟩
      | none =>
          simp only [firstLayerValue, hl]
          rw [hl] at h
          simp at h
          exact ih (by simpa using h)

theorem filter_ne_of_not_live {layers : List Layer} {t : String}
    (h : layers.any (fun l => l.txId = t) = false) :
    layers.filter (fun l => l.txId ≠ t) = layers := by
  induction layers with
  | nil => rfl
  | cons l rest ih =>
      simp only [List.any_cons, Bool.or_eq_false_iff] at h
      have hne : l.txId ≠ t := of_decide_eq_false h.1
      have hd : (decide (l.txId ≠ t)) = true := decide_eq_true hne
      rw [List.filter_cons, hd, if_pos rfl, ih h.2]

theorem applyCanonical_cons (s : CacheState) (p : Ident × Record) (ps : List (Ident × Record)) :
    applyCanonical s (p :: ps) = applyCanonical (applyCanonicalRecord s p.1 p.2) ps := rfl

theorem layers_applyCanonical (s : CacheState) (recs : List (Ident × Record)) :
    (applyCanonical s recs).layers = s.layers := by
  induction recs generalizing s with
  | nil => rfl
  | cons p ps ih => rw [applyCanonical_cons, ih]; rfl

theorem effectiveField_canonical_noop (s : CacheState) (id : Ident) (rec : Record)
    (h : ∀ p ∈ rec, effectiveField s id p.1 = some p.2) :
    ∀ id2 f, effectiveField (applyCanonicalRecord s id rec) id2 f = effectiveField s id2 f := by
  intro id2 f
  have hlay : (applyCanonicalRecord s id rec).layers = s.layers := rfl
  unfold effectiveField
  rw [hlay]
  cases hfl : firstLayerValue s.layers id2 f with
  | some v => rfl
  | none =>
      show storeField (storeWrite s.store id rec) id2 f = storeField s.store id2 f
      rw [storeField_storeWrite]
      by_cases hid : id2 = id
      · subst hid
        cases hrf : lookupField rec f with
        | none => simp
        | some v =>
            have hv2 : storeField s.store id2 f = some v := by
              have hv := h _ (mem_of_alookup hrf)
              unfold effectiveField at hv
              rw [hfl] at hv
              exact hv
            simp [hrf, hv2]
      · simp [hid]

theorem effectiveField_push_noop (s : CacheState) (t : String) (patch : List (Ident × Record))
    (h : ∀ pr ∈ patch, ∀ p ∈ pr.2, effectiveField s pr.1 p.1 = some p.2) :
    ∀ id f,
      effectiveField { s with layers := { txId := t, patch := patch } :: s.layers } id f =
        effectiveField s id f := by
  intro id f
  show (match (match layerField { txId := t, patch := patch } id f with
      | some v => some v
      | none => firstLayerValue s.layers id f) with
    | some v => some v
    | none => storeField s.store id f) = effectiveField s id f
  cases hl : layerField { txId := t, patch := patch } id f with
  | none => rfl
  | some v =>
      have hl2 : (match alookup patch id with
          | some r => alookup r f
          | none => (none : Option Value)) = some v := hl
      cases hp : alookup patch id with
      | none => rw [hp] at hl2; cases hl2
      | some r =>
          rw [hp] at hl2
          have hv : effectiveField s id f = some v :=
            h _ (mem_of_alookup hp) _ (mem_of_alookup hl2)
          exact hv.symm

theorem diffPairs_eq_nil {old new : CacheState} (pairs : List Path)
    (h : ∀ id f, effectiveField old id f = effectiveField new id f) :
    diffPairs old new pairs = [] := by
  induction pairs with
  | nil => rfl
  | cons p ps ih =>
      have hp : (decide (effectiveField old p.1 p.2 ≠ effectiveField new p.1 p.2)) = false := by
        simp [h p.1 p.2]
      simp only [diffPairs, List.filter_cons, hp, if_neg]
      simpa [diffPairs] using ih

theorem affected_nil (sub : Subscription) : affected [] sub = false := by
  simp [affected]

theorem notify_nil (subs : List Subscription) : notify [] subs = [] := by
  have : subs.filter (affected []) = [] := by
    induction subs with
    | nil => rfl
    | cons sub rest ih => simp [List.filter_cons, affected_nil, ih]
  simp [notify, affectedBy, this]

theorem filter_push_discard {s : CacheState} {t : String} (h : isLive s t = false)
    (patch : List (Ident × Record)) :
    (({ txId := t, patch := patch } : Layer) :: s.layers).filter (fun l => l.txId ≠ t) =
      s.layers := by
  have hhead : (decide ((({ txId := t, patch := patch } : Layer)).txId ≠ t)) = false := by
    simp
  rw [List.filter_cons, hhead, if_neg Bool.false_ne_true, filter_ne_of_not_live h]

/-- C1: pushing an optimistic layer for a transaction id with no live layer
and immediately discarding it (no intervening canonical write) restores
every `resolve` result to exactly its pre-push value. -/
theorem c1_push_discard_roundtrip (s : CacheState) (t : String)
    (patch : List (Ident × Record)) (h : isLive s t = false) :
    ∃ s1 s2, beginOptimistic s t patch = .ok s1 ∧ discardOptimistic s1 t = .ok s2 ∧
      ∀ id path, resolve s2 id path = resolve s id path := by
  refine ⟨{ s with layers := { txId := t, patch := patch } :: s.layers }, s, ?_, ?_,
    fun id path => rfl⟩
  · simp [beginOptimistic, h]
  · have hlive : isLive { s with layers := { txId := t, patch := patch } :: s.layers } t = true := by
      simp [isLive]
    simp only [discardOptimistic, hlive, if_true]
    rw [filter_push_discard h patch]

/-- Witness for C1: round trip on the concrete comment store. -/
theorem c1_push_discard_roundtrip_witness :
    ∃ s1 s2,
      beginOptimistic sampleState "t9" [("Comment:5", [("content", Value.scalar "new")])] =
        .ok s1 ∧
      discardOptimistic s1 "t9" = .ok s2 ∧
      ∀ id path, resolve s2 id path = resolve sampleState id path :=
  c1_push_discard_roundtrip sampleState "t9"
    [("Comment:5", [("content", Value.scalar "new")])] rfl

/-- C2: `commit(T, R)` equals, for every read, discarding the layer of `T`
and then writing `R` canonically, and it leaves no layer of `T` behind. -/
theorem c2_commit_refines_discard_write (s : CacheState) (t : String)
    (recs : List (Ident × Record)) (h : isLive s t = true) :
    ∃ d s2, discardOptimistic s t = .ok d ∧ commit s t recs = .ok s2 ∧
      (∀ id path, resolve s2 id path = resolve (applyCanonical d recs) id path) ∧
      ∀ l ∈ s2.layers, l.txId ≠ t := by
  refine ⟨{ s with layers := s.layers.filter (fun l => l.txId ≠ t) },
    applyCanonical { s with layers := s.layers.filter (fun l => l.txId ≠ t) } recs,
    ?_, ?_, fun id path => rfl, ?_⟩
  · simp [discardOptimistic, h]
  · simp [commit, h]
  · intro l hl
    rw [layers_applyCanonical] at hl
    exact of_decide_eq_true (List.mem_filter.mp hl).2

/-- Witness for C2 on the concrete masked state. -/
theorem c2_commit_refines_discard_write_witness :
    ∃ d s2,
      discardOptimistic sampleLayerState "t1" = .ok d ∧
      commit sampleLayerState "t1" [("Comment:5", [("content", Value.scalar "new")])] = .ok s2 ∧
      (∀ id path,
        resolve s2 id path =
          resolve (applyCanonical d [("Comment:5", [("content", Value.scalar "new")])]) id path) ∧
      ∀ l ∈ s2.layers, l.txId ≠ "t1" :=
  c2_commit_refines_discard_write sampleLayerState "t1"
    [("Comment:5", [("content", Value.scalar "new")])] rfl

/-- C3: with layers for `T1` (pushed first) and `T2` (pushed second) both
patching field `f` on the same identifier, `resolve` returns the `T2` value;
discarding `T2` uncovers the `T1` value; discarding `T1` as well returns the
canonical Entity Store value. -/
theorem c3_stack_precedence (s : CacheState) (t1 t2 : String)
    (p1 p2 : List (Ident × Record)) (id : Ident) (f : Field) (v1 v2 : Value)
    (hne : t1 ≠ t2)
    (h1 : isLive s t1 = false) (h2 : isLive s t2 = false)
    (hmask : s.layers.any (fun l => (layerField l id f).isSome) = false)
    (hp1 : layerField { txId := t1, patch := p1 } id f = some v1)
    (hp2 : layerField { txId := t2, patch := p2 } id f = some v2) :
    ∃ s1 s2 s3 s4,
      beginOptimistic s t1 p1 = .ok s1 ∧
      beginOptimistic s1 t2 p2 = .ok s2 ∧
      resolve s2 id [f] = some v2 ∧
      discardOptimistic s2 t2 = .ok s3 ∧
      resolve s3 id [f] = some v1 ∧
      discardOptimistic s3 t1 = .ok s4 ∧
      resolve s4 id [f] = storeField s.store id f := by
  have hL1 : isLive { s with layers := ({ txId := t1, patch := p1 } : Layer) :: s.layers } t2 =
      false := by
    show (decide (t1 = t2) || s.layers.any fun l => decide (l.txId = t2)) = false
    rw [decide_eq_false hne, Bool.false_or]
    exact h2
  refine ⟨{ s with layers := ({ txId := t1, patch := p1 } : Layer) :: s.layers },
    { s with layers := ({ txId := t2, patch := p2 } : Layer) ::
        ({ txId := t1, patch := p1 } : Layer) :: s.layers },
    { s with layers := ({ txId := t1, patch := p1 } : Layer) :: s.layers },
    { s with layers := s.layers },
    ?_, ?_, ?_, ?_, ?_, ?_, ?_⟩
  · simp [beginOptimistic, h1]
  · simp [beginOptimistic, hL1]
  · show (match (match layerField { txId := t2, patch := p2 } id f with
        | some v => some v
        | none => firstLayerValue (({ txId := t1, patch := p1 } : Layer) :: s.layers) id f) with
      | some v => some v
      | none => storeField s.store id f) = some v2
    rw [hp2]
  · have hlive : isLive { s with layers := ({ txId := t2, patch := p2 } : Layer) ::
        ({ txId := t1, patch := p1 } : Layer) :: s.layers } t2 = true := by
      simp [isLive]
    simp only [discardOptimistic, hlive, if_true]
    have hstep : (({ txId := t2, patch := p2 } : Layer) ::
        ({ txId := t1, patch := p1 } : Layer) :: s.layers).filter (fun l => l.txId ≠ t2) =
        ({ txId := t1, patch := p1 } : Layer) :: s.layers := by
      have hh2 : (decide ((({ txId := t2, patch := p2 } : Layer)).txId ≠ t2)) = false := by simp
      have hh1 : (decide ((({ txId := t1, patch := p1 } : Layer)).txId ≠ t2)) = true :=
        decide_eq_true hne
      rw [List.filter_cons, hh2, if_neg Bool.false_ne_true, List.filter_cons, hh1, if_pos rfl,
        filter_ne_of_not_live h2]
    rw [hstep]
  · show (match (match layerField { txId := t1, patch := p1 } id f with
        | some v => some v
        | none => firstLayerValue s.layers id f) with
      | some v => some v
      | none => storeField s.store id f) = some v1
    rw [hp1]
  · have hlive : isLive { s with layers := ({ txId := t1, patch := p1 } : Layer) :: s.layers }
        t1 = true := by
      simp [isLive]
    simp only [discardOptimistic, hlive, if_true]
    rw [filter_push_discard h1 p1]
  · show (match firstLayerValue s.layers id f with
      | some v => some v
      | none => storeField s.store id f) = storeField s.store id f
    rw [firstLayerValue_eq_none hmask]

/-- Witness for C3: two concrete layers over the comment store. -/
theorem c3_stack_precedence_witness :
    ∃ s1 s2 s3 s4,
      beginOptimistic sampleState "t1" [("Comment:5", [("content", Value.scalar "a")])] = .ok s1 ∧
      beginOptimistic s1 "t2" [("Comment:5", [("content", Value.scalar "b")])] = .ok s2 ∧
      resolve s2 "Comment:5" ["content"] = some (Value.scalar "b") ∧
      discardOptimistic s2 "t2" = .ok s3 ∧
      resolve s3 "Comment:5" ["content"] = some (Value.scalar "a") ∧
      discardOptimistic s3 "t1" = .ok s4 ∧
      resolve s4 "Comment:5" ["content"] = storeField sampleState.store "Comment:5" "content" :=
  c3_stack_precedence sampleState "t1" "t2"
    [("Comment:5", [("content", Value.scalar "a")])]
    [("Comment:5", [("content", Value.scalar "b")])]
    "Comment:5" "content" (Value.scalar "a") (Value.scalar "b")
    (by decide) rfl rfl rfl rfl rfl

/-- C4: a write — canonical or optimistic — whose written values all equal
the current effective values of the pairs it touches returns an empty
change-set and invokes no subscription callback. -/
theorem c4_noop_write (s : CacheState) (id : Ident) (rec : Record) (t : String)
    (patch : List (Ident × Record)) (subs : List Subscription)
    (hrec : ∀ p ∈ rec, effectiveField s id p.1 = some p.2)
    (hpatch : ∀ pr ∈ patch, ∀ p ∈ pr.2, effectiveField s pr.1 p.1 = some p.2) :
    (applyCanonicalW s id rec).2 = [] ∧ notify (applyCanonicalW s id rec).2 subs = [] ∧
      ∀ s2 cs, applyOptimisticW s t patch = .ok (s2, cs) → cs = [] ∧ notify cs subs = [] := by
  have hcan := effectiveField_canonical_noop s id rec hrec
  have hcs : (applyCanonicalW s id rec).2 = [] :=
    diffPairs_eq_nil _ (fun i g => (hcan i g).symm)
  refine ⟨hcs, by rw [hcs]; exact notify_nil subs, ?_⟩
  intro s2 cs heq
  by_cases hl : isLive s t
  · simp [applyOptimisticW, beginOptimistic, hl] at heq
  · have hpush := effectiveField_push_noop s t patch hpatch
    simp only [applyOptimisticW, beginOptimistic, hl, Bool.false_eq_true, if_false,
      Except.ok.injEq, Prod.mk.injEq] at heq
    obtain ⟨hs2, hcs2⟩ := heq
    have hdiff : diffPairs s
        { s with layers := { txId := t, patch := patch } :: s.layers }
        (touchedPairsAll patch) = [] :=
      diffPairs_eq_nil _ (fun i g => (hpush i g).symm)
    rw [← hcs2, hdiff]
    exact ⟨rfl, notify_nil subs⟩

/-- Witness for C4: rewriting the comment's content to its current value. -/
theorem c4_noop_write_witness :
    (applyCanonicalW sampleState "Comment:5" [("content", Value.scalar "old")]).2 = [] ∧
    notify (applyCanonicalW sampleState "Comment:5" [("content", Value.scalar "old")]).2
      [sampleSub] = [] ∧
    ∀ s2 cs,
      applyOptimisticW sampleState "t9" [("Comment:5", [("content", Value.scalar "old")])] =
        .ok (s2, cs) →
      cs = [] ∧ notify cs [sampleSub] = [] :=
  c4_noop_write sampleState "Comment:5" [("content", Value.scalar "old")] "t9"
    [("Comment:5", [("content", Value.scalar "old")])] [sampleSub]
    (by decide) (by decide)

/-- C5: a subscription whose dependency set is exactly
`(Comment:5, content)` is notified by a change-set containing that pair and
not by a change-set containing only other pairs. -/
theorem c5_dependency_isolation (sub : Subscription) (subs : List Subscription)
    (changed other : List Path)
    (hdeps : sub.deps = [(("Comment:5" : Ident), ("content" : Field))])
    (hmem : sub ∈ subs)
    (huniq : ∀ s2 ∈ subs, s2.subId = sub.subId → s2 = sub)
    (hhit : (("Comment:5" : Ident), ("content" : Field)) ∈ changed)
    (hmiss : ∀ p ∈ other, p ≠ (("Comment:5" : Ident), ("content" : Field))) :
    sub.subId ∈ notify changed subs ∧ sub.subId ∉ notify other subs := by
  constructor
  · have haff : affected changed sub = true := by
      simp [affected, hdeps, hhit]
    exact List.mem_dedup.mpr
      (List.mem_map.mpr ⟨sub, List.mem_filter.mpr ⟨hmem, haff⟩, rfl⟩)
  · intro hin
    obtain ⟨s2, hs2f, hs2id⟩ := List.mem_map.mp (List.mem_dedup.mp hin)
    obtain ⟨hs2mem, hs2aff⟩ := List.mem_filter.mp hs2f
    have hs2 : s2 = sub := huniq s2 hs2mem hs2id
    subst hs2
    simp only [affected] at hs2aff
    rw [hdeps] at hs2aff
    simp at hs2aff
    exact hmiss _ hs2aff rfl

/-- Witness for C5: the sample subscription, one hitting and one missing
change-set. -/
theorem c5_dependency_isolation_witness :
    sampleSub.subId ∈ notify [(("Comment:5" : Ident), ("content" : Field))] [sampleSub] ∧
    sampleSub.subId ∉ notify [(("Comment:5" : Ident), ("author" : Field))] [sampleSub] :=
  c5_dependency_isolation sampleSub [sampleSub]
    [(("Comment:5" : Ident), ("content" : Field))]
    [(("Comment:5" : Ident), ("author" : Field))]
    rfl (by decide) (by decide) (by decide) (by decide)

/-- C6: while a live layer defines `(id, f)`, a canonical write leaves
`resolve(id, f)` unchanged, and canonical writes never remove or alter
layers. -/
theorem c6_canonical_never_clears_layer (s : CacheState) (id : Ident) (f : Field)
    (id2 : Ident) (rec : Record) (recs : List (Ident × Record))
    (hdef : s.layers.any (fun l => (layerField l id f).isSome) = true) :
    resolve (applyCanonicalRecord s id2 rec) id [f] = resolve s id [f] ∧
    (applyCanonicalRecord s id2 rec).layers = s.layers ∧
    (applyCanonical s recs).layers = s.layers := by
  obtain ⟨v, hv⟩ := firstLayerValue_isSome hdef
  refine ⟨?_, rfl, layers_applyCanonical s recs⟩
  show (match firstLayerValue s.layers id f with
      | some w => some w
      | none => storeField (storeWrite s.store id2 rec) id f) =
    (match firstLayerValue s.layers id f with
      | some w => some w
      | none => storeField s.store id f)
  rw [hv]

/-- Witness for C6: a canonical write to the masked comment content. -/
theorem c6_canonical_never_clears_layer_witness :
    resolve (applyCanonicalRecord sampleLayerState "Comment:5"
        [("content", Value.scalar "server")]) "Comment:5" ["content"] =
      resolve sampleLayerState "Comment:5" ["content"] ∧
    (applyCanonicalRecord sampleLayerState "Comment:5"
        [("content", Value.scalar "server")]).layers = sampleLayerState.layers ∧
    (applyCanonical sampleLayerState
        [("Comment:5", [("content", Value.scalar "server")])]).layers =
      sampleLayerState.layers :=
  c6_canonical_never_clears_layer sampleLayerState "Comment:5" "content" "Comment:5"
    [("content", Value.scalar "server")]
    [("Comment:5", [("content", Value.scalar "server")])] rfl

/-- C7: `beginOptimistic` on a transaction id that already has a live layer
surfaces `DuplicateTransactionError` synchronously and hands the caller back
the exact state it passed in — store, stack order and previous layer all
untouched. -/
theorem c7_duplicate_begin_atomic (s : CacheState) (t : String)
    (patch : List (Ident × Record)) (h : isLive s t = true) :
    beginOptimisticRun s t patch = (s, some CacheError.duplicateTransactionError) := by
  simp [beginOptimisticRun, beginOptimistic, h]

/-- Witness for C7: duplicate begin on the concrete masked state. -/
theorem c7_duplicate_begin_atomic_witness :
    beginOptimisticRun sampleLayerState "t1" [] =
      (sampleLayerState, some CacheError.duplicateTransactionError) :=
  c7_duplicate_begin_atomic sampleLayerState "t1" [] rfl

end Cache

namespace Errors

theorem foldl_append_messages (l : List ErrObj) (acc : String) :
    l.foldl (fun a e => a ++ e.message ++ "\n") acc = acc ++ concatMessages l := by
  induction l generalizing acc with
  | nil => simp [concatMessages, String.append_empty]
  | cons e es ih =>
      simp only [List.foldl_cons, concatMessages, List.foldr_cons] at *
      rw [ih]
      simp [String.append_assoc]

theorem generateErrorMessage_eq (g c : List ErrObj) (n : Option ErrObj) :
    generateErrorMessage g c n =
      stripTrailingNewline (concatMessages (g ++ c) ++
        (match n with | some ne => ne.message ++ "\n" | none => "")) := by
  unfold generateErrorMessage
  by_cases hg : (isNonEmptyArray g || isNonEmptyArray c) = true
  · rw [if_pos hg, foldl_append_messages, String.empty_append]
    cases n with
    | none => simp [String.append_empty]
    | some ne => simp [String.append_assoc]
  · have hboth : g = [] ∧ c = [] := by
      simp only [isNonEmptyArray, Bool.or_eq_true, Bool.not_eq_true] at hg
      push_neg at hg
      constructor
      · cases g with
        | nil => rfl
        | cons x xs => simp [List.isEmpty] at hg
      · cases c with
        | nil => rfl
        | cons x xs => simp [List.isEmpty] at hg
    obtain ⟨hgn, hcn⟩ := hboth
    subst hgn; subst hcn
    rw [if_neg hg]
    cases n with
    | none => rfl
    | some ne =>
        show stripTrailingNewline ("" ++ ne.message ++ "\n") =
          stripTrailingNewline (concatMessages [] ++ (ne.message ++ "\n"))
        rw [String.empty_append]
        show stripTrailingNewline (ne.message ++ "\n") =
          stripTrailingNewline ("" ++ (ne.message ++ "\n"))
        rw [String.empty_append]

/-- C8: with `errorMessage` omitted, the constructed message is the
concatenation of every GraphQL-error message then every client-error
message, each followed by a newline, then the network error's message and
newline when present, with one trailing newline stripped; the construction
touches no cache state (its inputs and output are plain error data). -/
theorem c8_generated_message (og oc : Option (List ErrObj)) (n : Option ErrObj) :
    (mkApolloError og oc n none).message =
      stripTrailingNewline (concatMessages (og.getD [] ++ oc.getD []) ++
        (match n with | some ne => ne.message ++ "\n" | none => "")) :=
  generateErrorMessage_eq (og.getD []) (oc.getD []) n

/-- C9: `isApolloError` answers exactly "does the value own a
`graphQLErrors` property"; every constructor product passes the test, and a
non-constructed error carrying the property also passes. -/
theorem c9_isApolloError_characterization :
    (∀ e : JSErrorObj, isApolloError e = true ↔ "graphQLErrors" ∈ e.ownProps) ∧
    (∀ msg, isApolloError (mkApolloErrorObj msg) = true) ∧
    ∃ e : JSErrorObj, isApolloError e = true ∧ ∀ msg, mkApolloErrorObj msg ≠ e := by
  refine ⟨?_, ?_, ⟨{ message := "", ownProps := ["graphQLErrors"] }, rfl, ?_⟩⟩
  · intro e
    simp [isApolloError]
  · intro msg
    rfl
  · intro msg h
    simp [mkApolloErrorObj, apolloErrorOwnProps] at h

/-- Witness for C9: the constructor output at a concrete message passes the
predicate. -/
theorem c9_isApolloError_characterization_witness :
    isApolloError (mkApolloErrorObj "boom") = true :=
  c9_isApolloError_characterization.2.1 "boom"

/-- C10: omitting every argument yields empty error arrays, a null network
error and the empty message, and passing the empty string as `errorMessage`
behaves exactly like omitting it. -/
theorem c10_constructor_defaults :
    (mkApolloError none none none none).graphQLErrors = [] ∧
    (mkApolloError none none none none).clientErrors = [] ∧
    (mkApolloError none none none none).networkError = none ∧
    (mkApolloError none none none none).message = "" ∧
    ∀ og oc n, mkApolloError og oc n (some "") = mkApolloError og oc n none := by
  refine ⟨rfl, rfl, rfl, rfl, ?_⟩
  intro og oc n
  rfl

/-- Witness for C10: the empty-string fallback at concrete arguments. -/
theorem c10_constructor_defaults_witness :
    mkApolloError (some [{ message := "x" }]) none (some { message := "n" }) (some "") =
      mkApolloError (some [{ message := "x" }]) none (some { message := "n" }) none :=
  c10_constructor_defaults.2.2.2.2 (some [{ message := "x" }]) none (some { message := "n" })

/-- Witness for C8: the aggregate message at concrete errors. -/
theorem c8_generated_message_witness :
    (mkApolloError (some [{ message := "gql" }]) (some [{ message := "client" }])
        (some { message := "net" }) none).message =
      stripTrailingNewline
        (concatMessages [{ message := "gql" }, { message := "client" }] ++ ("net" ++ "\n")) :=
  c8_generated_message (some [{ message := "gql" }]) (some [{ message := "client" }])
    (some { message := "net" })

end Errors
